import Mathlib

/-
Verification development for the swift-scribe streaming transcription bridge
(src/lib.rs). The audio-normalization functions of StreamingTranscriber
(f32_to_i16, resample_i16, to_mono_i16) compute with IEEE-754 binary floating
point; they are embedded here over exact dyadic rationals m * 2^e, which
represent every finite f32/f64 value exactly, with explicit round-to-nearest,
ties-to-even rounding at the precision (24 or 53 significant bits) of each
operation in the source. Subnormal underflow and exponent overflow of the IEEE
formats are not modelled; every quantity arising in the claims checked here is
far inside the normal range, where this model agrees bit for bit with the
hardware arithmetic. The process-lifecycle and result-channel code is embedded
as explicit state passing over a worker-process table and a read-outcome
oracle.
-/

/-- A dyadic rational `m * 2^e`: the exact value of a finite IEEE-754 binary
floating-point number. -/
structure Dyadic where
  m : Int
  e : Int
deriving DecidableEq

/-- Bit length of a natural number, with explicit fuel so that the kernel can
evaluate it. 4096 bits of fuel covers every quantity in this development. -/
def bitsAux : Nat → Nat → Nat
  | 0, _ => 0
  | _ + 1, 0 => 0
  | fuel + 1, n => bitsAux fuel (n / 2) + 1

/-- Bit length of a natural number: `bits n = 0` iff `n = 0`, and otherwise
`2 ^ (bits n - 1) ≤ n < 2 ^ bits n`. -/
def bits (n : Nat) : Nat := bitsAux 4096 n

/-- Round a natural mantissa to `prec` significant bits, round to nearest with
ties to even. `sticky` records that the value being rounded is strictly
greater than `m` by less than one unit in the last place of `m`. Returns the
rounded mantissa and the number of low bits dropped. -/
def roundNat (prec m : Nat) (sticky : Bool) : Nat × Nat :=
  let b := bits m
  if b ≤ prec then (m, 0)
  else
    let t := b - prec
    let hi := m / 2 ^ t
    let low := m % 2 ^ t
    let half := 2 ^ (t - 1)
    let up : Bool :=
      decide (half < low) || (decide (low = half) && (sticky || decide (hi % 2 = 1)))
    (if up then hi + 1 else hi, t)

/-- Strip trailing zero bits from a mantissa (canonical form), fuel-bounded. -/
def canonAux : Nat → Int → Int → Dyadic
  | 0, m, e => ⟨m, e⟩
  | fuel + 1, m, e => if m % 2 = 0 then canonAux fuel (m / 2) (e + 1) else ⟨m, e⟩

/-- Canonical representative of a dyadic value: zero is `⟨0, 0⟩`, otherwise the
mantissa is odd. -/
def Dyadic.canon (x : Dyadic) : Dyadic :=
  if x.m = 0 then ⟨0, 0⟩ else canonAux 4096 x.m x.e

/-- Round a dyadic value to `prec` significant bits, round to nearest, ties to
even: the IEEE-754 rounding applied after every arithmetic operation. -/
def Dyadic.roundP (prec : Nat) (x : Dyadic) : Dyadic :=
  if x.m = 0 then ⟨0, 0⟩
  else
    let a := x.m.natAbs
    let p := roundNat prec a false
    Dyadic.canon ⟨(if x.m < 0 then -(p.1 : Int) else (p.1 : Int)), x.e + p.2⟩

/-- Exact product of two dyadics. -/
def Dyadic.mulExact (a b : Dyadic) : Dyadic := ⟨a.m * b.m, a.e + b.e⟩

/-- Exact sum of two dyadics (mantissas aligned to the smaller exponent). -/
def Dyadic.addExact (a b : Dyadic) : Dyadic :=
  if a.e ≤ b.e then ⟨a.m + b.m * 2 ^ (b.e - a.e).toNat, a.e⟩
  else ⟨a.m * 2 ^ (a.e - b.e).toNat + b.m, b.e⟩

/-- Negation of a dyadic. -/
def Dyadic.neg (a : Dyadic) : Dyadic := ⟨-a.m, a.e⟩

/-- Floating-point multiplication at `prec` significant bits. -/
def Dyadic.fmul (prec : Nat) (a b : Dyadic) : Dyadic := (a.mulExact b).roundP prec

/-- Floating-point addition at `prec` significant bits. -/
def Dyadic.fadd (prec : Nat) (a b : Dyadic) : Dyadic := (a.addExact b).roundP prec

/-- Floating-point subtraction at `prec` significant bits. -/
def Dyadic.fsub (prec : Nat) (a b : Dyadic) : Dyadic := (a.addExact b.neg).roundP prec

/-- Correctly rounded floating-point division of dyadics at `prec` significant
bits (`b.m ≠ 0` for every use in this development). The numerator is shifted so
the integer quotient carries at least `prec + 2` bits, and the division
remainder enters the rounding as a sticky bit. -/
def Dyadic.fdiv (prec : Nat) (a b : Dyadic) : Dyadic :=
  if a.m = 0 then ⟨0, 0⟩
  else
    let sgn : Bool := (decide (a.m < 0)) != (decide (b.m < 0))
    let A := a.m.natAbs
    let B := b.m.natAbs
    let k := bits B + prec + 2 - bits A
    let N := A * 2 ^ k
    let Q := N / B
    let R := N % B
    let p := roundNat prec Q (decide (R ≠ 0))
    Dyadic.canon ⟨(if sgn then -(p.1 : Int) else (p.1 : Int)), a.e - b.e - k + p.2⟩

/-- Boolean strict comparison of dyadic values. -/
def Dyadic.blt (a b : Dyadic) : Bool :=
  if a.e ≤ b.e then decide (a.m < b.m * 2 ^ (b.e - a.e).toNat)
  else decide (a.m * 2 ^ (a.e - b.e).toNat < b.m)

/-- Truncation of a dyadic toward zero: the integer part used by the Rust
float-to-integer `as` cast. -/
def Dyadic.trunc (x : Dyadic) : Int :=
  if 0 ≤ x.e then x.m * 2 ^ x.e.toNat
  else Int.tdiv x.m (2 ^ (-x.e).toNat)

/-- Exact ceiling of a dyadic: the f64 `ceil` operation (always exact). -/
def Dyadic.fceil (x : Dyadic) : Int :=
  if 0 ≤ x.e then x.m * 2 ^ x.e.toNat
  else -(Int.fdiv (-x.m) (2 ^ (-x.e).toNat))

/-- The dyadic with integer value `n`. -/
def Dyadic.ofInt (n : Int) : Dyadic := ⟨n, 0⟩

/-- Rust `clamp(lo, hi)` on floating-point values: comparisons are exact, no
rounding is involved. -/
def Dyadic.fclamp (lo hi x : Dyadic) : Dyadic :=
  if x.blt lo then lo else if hi.blt x then hi else x

/-- Rust integer-to-f64 `as` cast: round the integer to 53 significant bits. -/
def f64ofInt (n : Int) : Dyadic := (Dyadic.ofInt n).roundP 53

/-- Rust unsigned-to-f64 `as` cast. -/
def f64ofNat (n : Nat) : Dyadic := f64ofInt n

/-- Rust f64-to-i16 `as` cast: truncate toward zero, saturating at the i16
bounds. -/
def i16cast (x : Dyadic) : Int := max (-32768) (min 32767 x.trunc)

/-- The fixed output sample rate of the worker wire format (lib.rs
`TARGET_RATE` inside `resample_i16`). -/
def TARGET_RATE : Nat := 16000

/-- lib.rs `StreamingTranscriber::f32_to_i16`: clamp each f32 sample to
[-1.0, 1.0] and scale by 32767.0 in f32 arithmetic, then cast to i16
(truncation toward zero, saturating). -/
def f32_to_i16 (samples : List Dyadic) : List Int :=
  samples.map fun s =>
    let clamped := Dyadic.fclamp (Dyadic.ofInt (-1)) (Dyadic.ofInt 1) s
    i16cast (Dyadic.fmul 24 clamped (Dyadic.ofInt 32767))

/-- The f64 resampling ratio `TARGET_RATE as f64 / from_rate as f64` of
lib.rs `resample_i16`. -/
def resampleRatio (from_rate : Nat) : Dyadic :=
  Dyadic.fdiv 53 (f64ofNat TARGET_RATE) (f64ofNat from_rate)

/-- The f64 source position `(i as f64) / ratio` of lib.rs `resample_i16`. -/
def resampleSrcPos (ratio : Dyadic) (i : Nat) : Dyadic :=
  Dyadic.fdiv 53 (f64ofNat i) ratio

/-- The source index `src_pos as usize` of lib.rs `resample_i16`. -/
def resampleSrcIdx (ratio : Dyadic) (i : Nat) : Nat :=
  (resampleSrcPos ratio i).trunc.toNat

/-- The f64 output length `((samples.len() as f64) * ratio).ceil() as usize`
of lib.rs `resample_i16`. -/
def resampleOutLen (len from_rate : Nat) : Nat :=
  ((Dyadic.fmul 53 (f64ofNat len) (resampleRatio from_rate)).fceil).toNat

/-- One loop iteration body of lib.rs `resample_i16`: linear interpolation
between `samples[src_idx]` and `samples[src_idx + 1]` by `frac` when
`src_idx + 1` is in bounds (clamped to the i16 range and truncated), and
`samples[src_idx]` unchanged otherwise. All arithmetic is f64. -/
def resampleEmit (samples : List Int) (ratio : Dyadic) (i : Nat) : Int :=
  let src_pos := resampleSrcPos ratio i
  let src_idx := src_pos.trunc.toNat
  let frac := Dyadic.fsub 53 src_pos (f64ofNat src_idx)
  if src_idx + 1 < samples.length then
    let s0 := f64ofInt (samples.getD src_idx 0)
    let s1 := f64ofInt (samples.getD (src_idx + 1) 0)
    let interpolated := Dyadic.fadd 53 s0 (Dyadic.fmul 53 (Dyadic.fsub 53 s1 s0) frac)
    i16cast (Dyadic.fclamp (Dyadic.ofInt (-32768)) (Dyadic.ofInt 32767) interpolated)
  else
    samples.getD src_idx 0

/-- lib.rs `StreamingTranscriber::resample_i16`: identity at the target rate,
otherwise linear interpolation over f64 positions. The loop `for i in
0..output_len` with its `break` on `src_idx >= samples.len()` is the
`takeWhile` over `List.range output_len`; the third parameter `channels` is
unused, exactly as `_channels` in the source. -/
def resample_i16 (samples : List Int) (from_rate : Nat) (channels : Nat) : List Int :=
  if from_rate = TARGET_RATE then samples
  else
    let ratio := resampleRatio from_rate
    let output_len := resampleOutLen samples.length from_rate
    ((List.range output_len).takeWhile
        (fun i => decide (resampleSrcIdx ratio i < samples.length))).map
      (resampleEmit samples ratio)

/-- lib.rs `StreamingTranscriber::to_mono_i16`: identity for at most one
channel; otherwise average each interleaved frame of `channels` samples with
i32 integer division (truncation toward zero), clamped to the i16 range. The
i32 accumulator cannot overflow for i16 input samples, so unbounded integers
are a faithful model on the i16 domain. -/
def to_mono_i16 (samples : List Int) (channels : Nat) : List Int :=
  if channels ≤ 1 then samples
  else
    let frames := samples.length / channels
    (List.range frames).map fun frame_idx =>
      let sum := (List.range channels).foldl
        (fun acc ch => acc + samples.getD (frame_idx * channels + ch) 0) 0
      max (-32768) (min 32767 (Int.tdiv sum channels))

/-- Interleaving of a list of stereo frames `(left, right)` into the flat
sample sequence fed to `to_mono_i16` with `channels = 2` (statement helper for
the downmix claim). -/
def interleave2 : List (Int × Int) → List Int
  | [] => []
  | p :: rest => p.1 :: p.2 :: interleave2 rest

deriving instance DecidableEq for Except

/-- Audio input mode of a streaming session (lib.rs `AudioInputMode`). -/
inductive AudioInputMode where
  | Microphone
  | Programmatic
deriving DecidableEq

/-- Observable lifecycle state of one spawned worker process: whether the
supervisor has delivered a termination signal to it (`kill`) and whether it
has been reaped (`wait`). A process with both flags false is live or a
zombie: it has been leaked if no handle can reach it any more. -/
structure WorkerProc where
  killed : Bool
  waited : Bool
deriving DecidableEq

/-- The table of every worker process spawned so far, indexed by spawn order
(a process table abstraction; spawning appends). -/
structure WorkerWorld where
  procs : List WorkerProc
deriving DecidableEq

/-- One outcome of a `BufReader::read_line` call on the worker stdout pipe:
end of stream, a complete line, a would-block condition (only ever produced by
a pipe in non-blocking mode), or another I/O error. -/
inductive ReadOutcome where
  | eof
  | line (contents : String)
  | wouldBlock
  | ioErr (msg : String)
deriving DecidableEq

/-- lib.rs `StreamingTranscriber` state: helper path, fixed input mode, and
the optional worker handle parts (`process`, `reader`, `stdin`). `process`
holds an index into the `WorkerWorld` table; `reader` holds the oracle of
outcomes the stdout pipe will deliver; `stdin` records the writable pipe
end (present only after a Programmatic-mode `start`). -/
structure StreamingTranscriber where
  helper_path : String
  input_mode : AudioInputMode
  process : Option Nat
  reader : Option (List ReadOutcome)
  stdin : Option Nat
deriving DecidableEq

/-- lib.rs `StreamingTranscriber::start`, successful-spawn path: spawn a fresh
worker (append to the process table), wrap its stdout in a new reader whose
future read outcomes are the oracle `newPipe`, capture its stdin in
Programmatic mode, and overwrite `self.process`. The source never inspects
the previous `self.process`; the overwritten handle is dropped without kill
or wait (std::process::Child does not kill on drop). OS spawn failure
returns an error without touching state and is not modelled. -/
def start (t : StreamingTranscriber) (w : WorkerWorld) (newPipe : List ReadOutcome) :
    Except String Unit × StreamingTranscriber × WorkerWorld :=
  let pid := w.procs.length
  let t2 : StreamingTranscriber :=
    { t with
      reader := some newPipe
      stdin := if t.input_mode = AudioInputMode.Programmatic then some pid else t.stdin
      process := some pid }
  (Except.ok (), t2, ⟨w.procs ++ [⟨false, false⟩]⟩)

/-- Whether a `Result`-valued OS call succeeded. -/
def exceptOk : Except String Unit → Bool
  | Except.ok _ => true
  | Except.error _ => false

/-- lib.rs `StreamingTranscriber::stop`: drop stdin and reader, take the
process handle, attempt `kill` and `wait` on it with the outcomes `killRes`
and `waitRes` (both results are discarded with `let _ =` in the source), and
return `Ok(())`. The world records a delivered signal or a reap only when the
corresponding OS call succeeded. -/
def stop (t : StreamingTranscriber) (w : WorkerWorld)
    (killRes waitRes : Except String Unit) :
    Except String Unit × StreamingTranscriber × WorkerWorld :=
  let t2 : StreamingTranscriber := { t with stdin := none, reader := none, process := none }
  match t.process with
  | none => (Except.ok (), t2, w)
  | some pid =>
    let old := w.procs.getD pid ⟨false, false⟩
    let w2 : WorkerWorld :=
      ⟨w.procs.set pid ⟨old.killed || exceptOk killRes, old.waited || exceptOk waitRes⟩⟩
    (Except.ok (), t2, w2)

/-- Little-endian byte serialization of one i16 sample (`to_le_bytes`). -/
def i16le (v : Int) : List Nat :=
  let u := (v % 65536).toNat
  [u % 256, u / 256]

/-- lib.rs `StreamingTranscriber::feed_audio_i16`: reject non-Programmatic
mode before touching the pipe, require a captured stdin, then resample,
downmix and write the little-endian bytes. The returned `ok` payload is the
byte sequence written to the worker pipe; an error return writes nothing.
The pipe write and flush themselves are modelled as succeeding. -/
def feed_audio_i16 (t : StreamingTranscriber) (samples : List Int)
    (sample_rate : Nat) (channels : Nat) : Except String (List Nat) :=
  if t.input_mode = AudioInputMode.Programmatic then
    match t.stdin with
    | none => Except.error "Transcriber not started"
    | some _ =>
      let resampled := resample_i16 samples sample_rate channels
      let mono := to_mono_i16 resampled channels
      Except.ok ((mono.map i16le).flatten)
  else Except.error "feed_audio_i16 can only be used with programmatic input mode"

/-- lib.rs `StreamingTranscriber::feed_audio_f32`: reject non-Programmatic
mode, then quantize to i16 and delegate to `feed_audio_i16`. -/
def feed_audio_f32 (t : StreamingTranscriber) (samples : List Dyadic)
    (sample_rate : Nat) (channels : Nat) : Except String (List Nat) :=
  if t.input_mode = AudioInputMode.Programmatic then
    feed_audio_i16 t (f32_to_i16 samples) sample_rate channels
  else Except.error "feed_audio_f32 can only be used with programmatic input mode"

/-- One `read_line` call against the reader oracle: an exhausted oracle keeps
delivering end-of-stream, as a closed pipe does. -/
def readLine : List ReadOutcome → ReadOutcome × List ReadOutcome
  | [] => (ReadOutcome.eof, [])
  | o :: rest => (o, rest)

/-- One decoded result line from the worker (lib.rs `StreamingResult`): the
field `is_final` is keyed `isFinal` on the wire. The f64 `timestamp` is a
dyadic: the parser rounds the decimal literal to 53 bits exactly as a
correctly rounded decimal-to-f64 conversion does. -/
structure StreamingResult where
  text : String
  is_final : Bool
  timestamp : Dyadic
deriving DecidableEq

/-- The double-quote character. -/
def quoteC : Char := Char.ofNat 34

/-- The opening-brace character. -/
def lbraceC : Char := Char.ofNat 123

/-- The closing-brace character. -/
def rbraceC : Char := Char.ofNat 125

/-- ASCII whitespace recognized by the JSON reader and by string trimming. -/
def isWsChar (c : Char) : Bool :=
  c == ' ' || c == '\t' || c == '\n' || c == '\r'

/-- Rust `str::trim` (ASCII whitespace suffices for the worker wire format). -/
def strTrim (s : String) : String :=
  ⟨((s.data.dropWhile isWsChar).reverse.dropWhile isWsChar).reverse⟩

/-- Decimal digits of a natural number, fuel-bounded. -/
def natDigits : Nat → Nat → List Char
  | 0, _ => []
  | fuel + 1, n =>
    if n = 0 then [] else natDigits fuel (n / 10) ++ [Char.ofNat (48 + n % 10)]

/-- Decimal rendering of a natural number (for parser error positions). -/
def natToStr (n : Nat) : String :=
  if n = 0 then "0" else ⟨natDigits 64 n⟩

/-- Skip whitespace, counting consumed characters. -/
def skipWsP : List Char → Nat → List Char × Nat
  | [], p => ([], p)
  | c :: cs, p => if isWsChar c then skipWsP cs (p + 1) else (c :: cs, p)

/-- Match an expected keyword tail; on mismatch report the failing one-based
column, as serde_json does for a bad literal ident. -/
def parseIdentP : List Char → List Char → Nat → Except String (List Char × Nat)
  | [], cs, p => Except.ok (cs, p)
  | _ :: _, [], p => Except.error ("expected ident at line 1 column " ++ natToStr (p + 1))
  | e :: es, c :: cs, p =>
    if c == e then parseIdentP es cs (p + 1)
    else Except.error ("expected ident at line 1 column " ++ natToStr (p + 1))

/-- Parse a JSON string body after the opening quote (the worker wire format
uses no escape sequences, which are therefore not modelled). Returns the
content, the rest, and the position after the closing quote. -/
def parseStringP : List Char → Nat → Except String (List Char × List Char × Nat)
  | [], p => Except.error ("EOF while parsing a string at line 1 column " ++ natToStr (p + 1))
  | c :: cs, p =>
    if c == quoteC then Except.ok ([], cs, p + 1)
    else
      match parseStringP cs (p + 1) with
      | Except.ok (content, rest, p2) => Except.ok (c :: content, rest, p2)
      | Except.error e => Except.error e

/-- Take a maximal run of decimal digits. -/
def digitsP : List Char → Nat → List Char × List Char × Nat
  | [], p => ([], [], p)
  | c :: cs, p =>
    if decide (48 ≤ c.toNat) && decide (c.toNat ≤ 57) then
      match digitsP cs (p + 1) with
      | (ds, rest, p2) => (c :: ds, rest, p2)
    else ([], c :: cs, p)

/-- Numeric value of a digit run. -/
def digitsVal (l : List Char) : Nat :=
  l.foldl (fun acc c => acc * 10 + (c.toNat - 48)) 0

/-- Parse a JSON number of the worker wire format (optional sign, integer
part, optional fraction) and convert it to f64 by correctly rounded division
of the scaled integer by the power of ten, exactly as a decimal-to-double
conversion rounds. -/
def parseNumberP (cs : List Char) (p : Nat) : Except String (Dyadic × List Char × Nat) :=
  let sgn : Bool × List Char × Nat :=
    match cs with
    | c :: rest => if c == '-' then (true, rest, p + 1) else (false, cs, p)
    | [] => (false, cs, p)
  match digitsP sgn.2.1 sgn.2.2 with
  | ([], _, _) =>
    Except.error ("expected value at line 1 column " ++ natToStr (sgn.2.2 + 1))
  | (ds, rest1, p2) =>
    let fr : List Char × List Char × Nat :=
      match rest1 with
      | c :: r2 => if c == '.' then digitsP r2 (p2 + 1) else ([], rest1, p2)
      | [] => ([], rest1, p2)
    let mant : Int := (digitsVal (ds ++ fr.1) : Int)
    let mant2 : Int := if sgn.1 then -mant else mant
    Except.ok
      (Dyadic.fdiv 53 (Dyadic.ofInt mant2) (Dyadic.ofInt ((10 : Int) ^ fr.1.length)),
       fr.2.1, fr.2.2)

/-- Finalize a parsed object: require all three fields of the wire format. -/
def finishObjP (tOpt : Option (List Char)) (fOpt : Option Bool) (sOpt : Option Dyadic)
    (rest : List Char) (p : Nat) : Except String (StreamingResult × List Char × Nat) :=
  match tOpt, fOpt, sOpt with
  | some tv, some fv, some sv => Except.ok (⟨⟨tv⟩, fv, sv⟩, rest, p)
  | none, _, _ => Except.error ("missing field `text` at line 1 column " ++ natToStr p)
  | _, none, _ => Except.error ("missing field `isFinal` at line 1 column " ++ natToStr p)
  | _, _, none => Except.error ("missing field `timestamp` at line 1 column " ++ natToStr p)

/-- Member-by-member object parser for the worker result record. `expectSep`
is false when a key (or the closing brace) is expected next and true when a
comma or the closing brace follows a just-parsed member value. Fuel bounds
the recursion; 16 covers every three-field record. -/
def parseObjP : Nat → Bool → List Char → Nat →
    Option (List Char) → Option Bool → Option Dyadic →
    Except String (StreamingResult × List Char × Nat)
  | 0, _, _, p, _, _, _ =>
    Except.error ("recursion limit exceeded at line 1 column " ++ natToStr (p + 1))
  | fuel + 1, true, cs, p, tOpt, fOpt, sOpt =>
    let w := skipWsP cs p
    match w.1 with
    | [] => Except.error ("EOF while parsing an object at line 1 column " ++ natToStr (w.2 + 1))
    | c :: rest =>
      if c == rbraceC then finishObjP tOpt fOpt sOpt rest (w.2 + 1)
      else if c == ',' then parseObjP fuel false rest (w.2 + 1) tOpt fOpt sOpt
      else Except.error ("expected `,` or `\x7d` at line 1 column " ++ natToStr (w.2 + 1))
  | fuel + 1, false, cs, p, tOpt, fOpt, sOpt =>
    let w := skipWsP cs p
    match w.1 with
    | [] => Except.error ("EOF while parsing an object at line 1 column " ++ natToStr (w.2 + 1))
    | c :: rest =>
      if c == rbraceC then finishObjP tOpt fOpt sOpt rest (w.2 + 1)
      else if c == quoteC then
        match parseStringP rest (w.2 + 1) with
        | Except.error e => Except.error e
        | Except.ok (key, rest2, p2) =>
          let w3 := skipWsP rest2 p2
          match w3.1 with
          | [] =>
            Except.error ("EOF while parsing an object at line 1 column " ++ natToStr (w3.2 + 1))
          | c2 :: rest4 =>
            if c2 == ':' then
              let w5 := skipWsP rest4 (w3.2 + 1)
              if key == "text".data then
                match w5.1 with
                | [] =>
                  Except.error ("EOF while parsing a value at line 1 column " ++ natToStr (w5.2 + 1))
                | c3 :: rest6 =>
                  if c3 == quoteC then
                    match parseStringP rest6 (w5.2 + 1) with
                    | Except.error e => Except.error e
                    | Except.ok (v, rest7, p7) =>
                      parseObjP fuel true rest7 p7 (some v) fOpt sOpt
                  else
                    Except.error ("invalid type at line 1 column " ++ natToStr (w5.2 + 1))
              else if key == "isFinal".data then
                match w5.1 with
                | [] =>
                  Except.error ("EOF while parsing a value at line 1 column " ++ natToStr (w5.2 + 1))
                | c3 :: rest6 =>
                  if c3 == 't' then
                    match parseIdentP "rue".data rest6 (w5.2 + 1) with
                    | Except.error e => Except.error e
                    | Except.ok (rest7, p7) => parseObjP fuel true rest7 p7 tOpt (some true) sOpt
                  else if c3 == 'f' then
                    match parseIdentP "alse".data rest6 (w5.2 + 1) with
                    | Except.error e => Except.error e
                    | Except.ok (rest7, p7) => parseObjP fuel true rest7 p7 tOpt (some false) sOpt
                  else
                    Except.error ("invalid type at line 1 column " ++ natToStr (w5.2 + 1))
              else if key == "timestamp".data then
                match parseNumberP w5.1 w5.2 with
                | Except.error e => Except.error e
                | Except.ok (v, rest6, p6) => parseObjP fuel true rest6 p6 tOpt fOpt (some v)
              else Except.error ("unknown field `" ++ ⟨key⟩ ++ "`")
            else Except.error ("expected `:` at line 1 column " ++ natToStr (w3.2 + 1))
      else Except.error ("key must be a string at line 1 column " ++ natToStr (w.2 + 1))

/-- Model of `serde_json::from_str::<StreamingResult>` on one trimmed line of
worker output, faithful to serde_json on the line shapes exercised in this
development: a well-formed record parses to its fields; a malformed line
fails with a positional message (line and one-based column) that does not
echo the input text. -/
def parseStreamingResult (s : String) : Except String StreamingResult :=
  let w := skipWsP s.data 0
  match w.1 with
  | [] => Except.error ("EOF while parsing a value at line 1 column " ++ natToStr (w.2 + 1))
  | c :: rest =>
    if c == lbraceC then
      match parseObjP 16 false rest (w.2 + 1) none none none with
      | Except.error e => Except.error e
      | Except.ok (r, rest2, p2) =>
        let w3 := skipWsP rest2 p2
        match w3.1 with
        | [] => Except.ok r
        | _ =>
          Except.error ("trailing characters at line 1 column " ++ natToStr (w3.2 + 1))
    else if c == 'n' then
      match parseIdentP "ull".data rest (w.2 + 1) with
      | Except.error e => Except.error e
      | Except.ok _ =>
        Except.error
          ("invalid type: null, expected struct StreamingResult at line 1 column "
            ++ natToStr (w.2 + 4))
    else if c == 't' then
      match parseIdentP "rue".data rest (w.2 + 1) with
      | Except.error e => Except.error e
      | Except.ok _ => Except.error ("invalid type at line 1 column " ++ natToStr (w.2 + 4))
    else if c == 'f' then
      match parseIdentP "alse".data rest (w.2 + 1) with
      | Except.error e => Except.error e
      | Except.ok _ => Except.error ("invalid type at line 1 column " ++ natToStr (w.2 + 5))
    else if c == quoteC || c == '-' || (decide (48 ≤ c.toNat) && decide (c.toNat ≤ 57)) then
      Except.error ("invalid type at line 1 column " ++ natToStr (w.2 + 1))
    else Except.error ("expected value at line 1 column " ++ natToStr (w.2 + 1))

/-- lib.rs `StreamingTranscriber::poll_result`: error when not started, then
one `read_line`: end-of-stream maps to the channel-ended error, a complete
line is trimmed and decoded (decode failure wraps the parser message), a
would-block read maps to `Ok(None)`, and any other I/O error is wrapped. -/
def poll_result (t : StreamingTranscriber) :
    Except String (Option StreamingResult) × StreamingTranscriber :=
  match t.reader with
  | none => (Except.error "Transcriber not started", t)
  | some rs =>
    let r := readLine rs
    let t2 : StreamingTranscriber := { t with reader := some r.2 }
    match r.1 with
    | ReadOutcome.eof => (Except.error "Streaming process ended", t2)
    | ReadOutcome.line l =>
      match parseStreamingResult (strTrim l) with
      | Except.ok v => (Except.ok (some v), t2)
      | Except.error e => (Except.error ("Failed to parse result: " ++ e), t2)
    | ReadOutcome.wouldBlock => (Except.ok none, t2)
    | ReadOutcome.ioErr msg => (Except.error ("Failed to read from helper: " ++ msg), t2)

/-- A fresh Programmatic-mode session as produced by the builder (no worker
handle yet), over an empty process table (demo input for the lifecycle
claims). -/
def demoSession : StreamingTranscriber :=
  ⟨"./helpers/transcribe_stream", AudioInputMode.Programmatic, none, none, none⟩

/-- First `start` on the fresh session. -/
def startOnce : Except String Unit × StreamingTranscriber × WorkerWorld :=
  start demoSession ⟨[]⟩ []

/-- Second `start` on the already-running session. -/
def startTwice : Except String Unit × StreamingTranscriber × WorkerWorld :=
  start startOnce.2.1 startOnce.2.2 []

/-- A started session whose worker stdout will deliver one malformed line and
then one well-formed result line. -/
def pollDemo : StreamingTranscriber :=
  ⟨"./helpers/transcribe_stream", AudioInputMode.Microphone, some 0,
    some [ReadOutcome.line "not-json\n",
      ReadOutcome.line "\x7b\"text\":\"hello\",\"isFinal\":true,\"timestamp\":1.0\x7d\n"],
    none⟩

/-- A started Microphone-mode session (demo input for the shutdown claims). -/
def stopDemo : StreamingTranscriber :=
  ⟨"./helpers/transcribe_stream", AudioInputMode.Microphone, some 0, some [], none⟩

theorem list_takeWhile_eq_self {α : Type} (p : α → Bool) :
    ∀ (l : List α), (∀ a ∈ l, p a = true) → l.takeWhile p = l
  | [], _ => rfl
  | a :: l, h => by
    have ha : p a = true := h a (List.mem_cons_self a l)
    simp only [List.takeWhile_cons, ha, if_true]
    exact congrArg (a :: ·) (list_takeWhile_eq_self p l fun b hb => h b (List.mem_cons_of_mem a hb))

theorem map_range_getD (f : Nat → Int) (n i : Nat) (h : i < n) :
    ((List.range n).map f).getD i 0 = f i := by
  rw [List.getD_eq_getElem?_getD, List.getElem?_map, List.getElem?_range h]
  rfl

/-- C1: the claim is false on the code. At source rate 28160 Hz with 44 input
samples, `resample_i16` emits 26 samples although `ceil(44 * 16000 / 28160)`
is exactly 25, and the tail-truncation edge case does not apply: the loop
never stops early, since every index below the f64-computed output length 26
has `src_idx < 44`. The f64 ratio `16000.0 / 28160.0` rounds above the exact
ratio, so the f64 product `44.0 * ratio` lands just above the exact integer
25 and its ceiling is 26. -/
theorem resample_i16_len_cex :
    (resample_i16 (List.replicate 44 0) 28160 1).length = 26 ∧
    (44 * 16000 + 28160 - 1) / 28160 = 25 ∧
    ((List.range (resampleOutLen 44 28160)).all
      fun i => decide (resampleSrcIdx (resampleRatio 28160) i < 44)) = true := by
  exact ⟨by decide, by decide, by decide⟩

/-- C1 (amended): for a positive source rate other than 16000, whenever the
emission loop never stops early, `resample_i16` emits exactly
`resampleOutLen` samples - the f64-computed `ceil((len as f64) * ratio)`,
which can differ from the exact `ceil(len * 16000 / R)` - and the sample at
every index `i` is `resampleEmit`: the f64 linear interpolation
`samples[src_idx] + (samples[src_idx + 1] - samples[src_idx]) * frac`
clamped to the i16 range and truncated when `src_idx + 1` is in bounds, and
`samples[src_idx]` unchanged otherwise. -/
theorem resample_i16_spec (samples : List Int) (from_rate channels : Nat)
    (hpos : 0 < from_rate) (hR : from_rate ≠ TARGET_RATE)
    (hall : ∀ i < resampleOutLen samples.length from_rate,
      resampleSrcIdx (resampleRatio from_rate) i < samples.length) :
    (resample_i16 samples from_rate channels).length =
      resampleOutLen samples.length from_rate ∧
    ∀ i, i < resampleOutLen samples.length from_rate →
      (resample_i16 samples from_rate channels).getD i 0 =
        resampleEmit samples (resampleRatio from_rate) i := by
  have htw : (List.range (resampleOutLen samples.length from_rate)).takeWhile
      (fun i => decide (resampleSrcIdx (resampleRatio from_rate) i < samples.length)) =
      List.range (resampleOutLen samples.length from_rate) :=
    list_takeWhile_eq_self _ _ fun a ha => by
      simpa using hall a (List.mem_range.mp ha)
  unfold resample_i16
  rw [if_neg hR]
  simp only [htw]
  refine ⟨by simp, ?_⟩
  intro i hi
  exact map_range_getD _ _ _ hi

/-- Witness for C1 (amended) at 3 samples and 8000 Hz: the loop never breaks
early there, and the emitted length matches the f64 output length. -/
theorem resample_i16_spec_witness :
    (resample_i16 [0, 0, 0] 8000 1).length = resampleOutLen 3 8000 :=
  (resample_i16_spec [0, 0, 0] 8000 1 (by decide) (by decide) (by decide)).1

/-- C2: the claim is false on the code. For the f32 sample
`s = 32769 / 65536 = 0.5000152587890625`, the exact product `s * 32767` is
`16384 - 2 ^ (-16)`, whose truncation toward zero is 16383; but the f32
multiplication rounds the product up to 16384.0, so `f32_to_i16` yields
16384, not the truncation of the exact scaled value. -/
theorem f32_to_i16_trunc_cex :
    f32_to_i16 [⟨32769, -16⟩] = [16384] ∧
    Int.tdiv (32769 * 32767) 65536 = 16383 := by
  exact ⟨by decide, by decide⟩

/-- C2 (amended): each output of `f32_to_i16` is the i16 saturating
truncation of the f32-rounded product `clamp(s, -1.0, 1.0) * 32767.0` (the
scaling is rounded to 24 significant bits before the truncation toward
zero); and on every input slice consisting entirely of the value 1.0 every
output sample is the maximal 16-bit PCM value 32767. -/
theorem f32_to_i16_spec (samples : List Dyadic) :
    f32_to_i16 samples = samples.map (fun s =>
      i16cast (Dyadic.fmul 24
        (Dyadic.fclamp (Dyadic.ofInt (-1)) (Dyadic.ofInt 1) s) (Dyadic.ofInt 32767))) ∧
    ((∀ s ∈ samples, s = Dyadic.mk 1 0) →
      f32_to_i16 samples = List.replicate samples.length 32767) := by
  refine ⟨rfl, ?_⟩
  intro h
  rw [List.eq_replicate_iff]
  refine ⟨by simp [f32_to_i16], ?_⟩
  intro b hb
  obtain ⟨s, hs, rfl⟩ := List.mem_map.mp hb
  rw [h s hs]
  decide

/-- Witness for C2 (amended): the all-ones slice of length one maps to
32767. -/
theorem f32_to_i16_spec_witness :
    f32_to_i16 [Dyadic.mk 1 0] = List.replicate 1 32767 :=
  (f32_to_i16_spec [Dyadic.mk 1 0]).2 (by decide)

/-- C3: the claim is false on the code. The stereo frame `(-1, -2)` has the
negative odd channel sum -3; rounding `(-3) / 2` down (floor) gives -2, but
`to_mono_i16` uses Rust i32 division, which truncates toward zero and yields
-1. -/
theorem to_mono_i16_floor_cex :
    to_mono_i16 [-1, -2] 2 = [-1] ∧ Int.fdiv (-1 + -2) 2 = -2 := by
  exact ⟨by decide, by decide⟩

theorem to_mono_i16_two_cons (a b : Int) (l : List Int) :
    to_mono_i16 (a :: b :: l) 2 =
      (max (-32768) (min 32767 (Int.tdiv (a + b) 2))) :: to_mono_i16 l 2 := by
  have hlen : (a :: b :: l).length / 2 = l.length / 2 + 1 := by
    simp only [List.length_cons]
    omega
  have hrange : List.range (l.length / 2 + 1) =
      0 :: (List.range (l.length / 2)).map Nat.succ := List.range_succ_eq_map _
  have h2 : List.range 2 = [0, 1] := rfl
  unfold to_mono_i16
  rw [if_neg (by decide), if_neg (by decide)]
  simp only [hlen, hrange, List.map_cons, List.map_map]
  refine congrArg₂ List.cons ?_ ?_
  · simp only [h2, List.foldl_cons, List.foldl_nil]
    norm_num
  · refine List.map_congr_left ?_
    intro fi _
    simp only [Function.comp_apply, h2, List.foldl_cons, List.foldl_nil]
    have e0 : (fi + 1) * 2 + 0 = fi * 2 + 0 + 1 + 1 := by ring
    have e1 : (fi + 1) * 2 + 1 = fi * 2 + 1 + 1 + 1 := by ring
    rw [e0, e1, List.getD_cons_succ, List.getD_cons_succ, List.getD_cons_succ,
      List.getD_cons_succ]
    norm_num

/-- C3 (amended): downmixing an interleaved 2-channel i16 sequence of frames
yields, per frame, the channel sum divided by 2 with Rust integer division -
truncation toward zero, so negative odd sums round toward zero, not down -
clamped to the i16 range. -/
theorem to_mono_i16_stereo (l : List (Int × Int))
    (hr : ∀ p ∈ l, -32768 ≤ p.1 ∧ p.1 ≤ 32767 ∧ -32768 ≤ p.2 ∧ p.2 ≤ 32767) :
    to_mono_i16 (interleave2 l) 2 =
      l.map (fun p => max (-32768) (min 32767 (Int.tdiv (p.1 + p.2) 2))) := by
  induction l with
  | nil => rfl
  | cons p rest ih =>
    rw [interleave2, to_mono_i16_two_cons, List.map_cons,
      ih fun q hq => hr q (List.mem_cons_of_mem p hq)]

/-- Witness for C3 (amended): one in-range frame downmixes to its truncated
average. -/
theorem to_mono_i16_stereo_witness :
    to_mono_i16 (interleave2 [((1000 : Int), (2001 : Int))]) 2 =
      [((1000 : Int), (2001 : Int))].map
        (fun p => max (-32768) (min 32767 (Int.tdiv (p.1 + p.2) 2))) :=
  to_mono_i16_stereo [(1000, 2001)] (by decide)

/-- C9: feeding at the 16000 Hz target rate with one channel, normalization
(resampling then downmix) is the identity on the sample sequence:
`resample_i16` takes its cheap equal-rate path and `to_mono_i16` its
single-channel path. -/
theorem normalize_identity_target_rate_mono (samples : List Int) :
    to_mono_i16 (resample_i16 samples 16000 1) 1 = samples := rfl

/-- C10: for at least two channels, `to_mono_i16` emits exactly
`input_len / channels` samples (floor division): the `input_len mod channels`
samples of an incomplete final frame are silently discarded - the output on
the full input equals the output on the input truncated to whole frames. -/
theorem to_mono_i16_discards_partial_frame (channels : Nat) (samples : List Int)
    (h : 2 ≤ channels) :
    (to_mono_i16 samples channels).length = samples.length / channels ∧
    to_mono_i16 samples channels =
      to_mono_i16 (samples.take (samples.length / channels * channels)) channels := by
  have hc1 : ¬ channels ≤ 1 := by omega
  have hc0 : 0 < channels := by omega
  have htk : (samples.take (samples.length / channels * channels)).length =
      samples.length / channels * channels :=
    List.length_take_of_le (Nat.div_mul_le_self _ _)
  constructor
  · unfold to_mono_i16
    rw [if_neg hc1]
    simp
  · unfold to_mono_i16
    rw [if_neg hc1, if_neg hc1]
    simp only [htk, Nat.mul_div_cancel _ hc0]
    refine List.map_congr_left ?_
    intro fi hfi
    have hfi2 : fi < samples.length / channels := List.mem_range.mp hfi
    refine congrArg (fun s => max (-32768) (min 32767 (Int.tdiv s channels))) ?_
    refine List.foldl_ext _ _ 0 ?_
    intro acc ch hch
    have hch2 : ch < channels := List.mem_range.mp hch
    have hidx : fi * channels + ch < samples.length / channels * channels := by
      calc fi * channels + ch < fi * channels + channels := by omega
        _ = (fi + 1) * channels := by ring
        _ ≤ samples.length / channels * channels := Nat.mul_le_mul_right _ (by omega)
    have hgd : (samples.take (samples.length / channels * channels)).getD
        (fi * channels + ch) 0 = samples.getD (fi * channels + ch) 0 := by
      rw [List.getD_eq_getElem?_getD, List.getD_eq_getElem?_getD, List.getElem?_take]
      rw [if_pos hidx]
    rw [hgd]

/-- Witness for C10: five samples in two channels downmix to two frames, with
the fifth sample discarded. -/
theorem to_mono_i16_discards_partial_frame_witness :
    (to_mono_i16 [1, 2, 3, 4, 5] 2).length = List.length [1, 2, 3, 4, 5] / 2 :=
  (to_mono_i16_discards_partial_frame 2 [1, 2, 3, 4, 5] (by decide)).1

/-- C6: in Microphone input mode, `feed_audio_i16` and `feed_audio_f32` fail
with the mode-violation error before touching the worker pipe: the error
return carries no written bytes (the ok payload is the byte sequence
written), and the transcriber state is not modified by either call. -/
theorem feed_audio_microphone_rejected (t : StreamingTranscriber)
    (samplesI : List Int) (samplesF : List Dyadic) (sample_rate channels : Nat)
    (h : t.input_mode = AudioInputMode.Microphone) :
    feed_audio_i16 t samplesI sample_rate channels =
      Except.error "feed_audio_i16 can only be used with programmatic input mode" ∧
    feed_audio_f32 t samplesF sample_rate channels =
      Except.error "feed_audio_f32 can only be used with programmatic input mode" := by
  unfold feed_audio_i16 feed_audio_f32
  rw [h]
  exact ⟨rfl, rfl⟩

/-- Witness for C6 at a concrete Microphone-mode session. -/
theorem feed_audio_microphone_rejected_witness :
    feed_audio_i16 stopDemo [0, 0] 48000 2 =
      Except.error "feed_audio_i16 can only be used with programmatic input mode" :=
  (feed_audio_microphone_rejected stopDemo [0, 0] [] 48000 2 rfl).1

/-- C4: on a started session, `poll_result` returns the no-result outcome
`Ok(None)` exactly when the underlying `read_line` reports a would-block
condition, and an end-of-stream read maps to the distinct channel-ended
error. A would-block report requires the pipe to be in non-blocking mode,
which the source never establishes, so on a real blocked pipe `read_line`
waits instead - see the claim record for the divergence. -/
theorem poll_result_none_iff_would_block (t : StreamingTranscriber)
    (rs : List ReadOutcome) (h : t.reader = some rs) :
    ((poll_result t).1 = Except.ok none ↔ (readLine rs).1 = ReadOutcome.wouldBlock) ∧
    ((readLine rs).1 = ReadOutcome.eof →
      (poll_result t).1 = Except.error "Streaming process ended") := by
  simp only [poll_result, h]
  rcases hr : readLine rs with ⟨o, rest⟩
  cases o with
  | eof => simp
  | line l =>
    cases hp : parseStreamingResult (strTrim l) with
    | ok v => simp [hp]
    | error e => simp [hp]
  | wouldBlock => simp
  | ioErr msg => simp

/-- Witness for C4 at a session whose next read would block. -/
theorem poll_result_none_iff_would_block_witness :
    ((poll_result ⟨"./helpers/transcribe_stream", AudioInputMode.Microphone, some 0,
        some [ReadOutcome.wouldBlock], none⟩).1 = Except.ok none ↔
      (readLine [ReadOutcome.wouldBlock]).1 = ReadOutcome.wouldBlock) :=
  (poll_result_none_iff_would_block _ [ReadOutcome.wouldBlock] rfl).1

/-- C5: the claim is violated by the code. Calling `start` on a session whose
worker is already running overwrites the handle with a fresh worker (pid 1)
and drops the previous one (pid 0) without delivering any termination signal
and without reaping it: after the second `start` the process table still
holds the first worker unkilled and unreaped - it is leaked, while the claim
requires the second `start` to fail or to terminate and reap it. -/
theorem start_twice_leaks_first_worker :
    startOnce.2.1.process = some 0 ∧
    startTwice.2.1.process = some 1 ∧
    startTwice.2.2.procs.length = 2 ∧
    startTwice.2.2.procs.getD 0 ⟨true, true⟩ = WorkerProc.mk false false ∧
    startTwice.1 = Except.ok () := by
  exact ⟨rfl, rfl, rfl, rfl, rfl⟩

/-- C7: the claim is false on the code. On the malformed line `not-json` the
decode error returned by `poll_result` is the wrapped parser message, which
reports only the failure position - it does not carry the offending line
text (`not-json` is not a substring of the error); the channel remains
usable: the next poll decodes the following well-formed line. -/
theorem poll_result_decode_error_cex :
    (poll_result pollDemo).1 =
      Except.error "Failed to parse result: expected ident at line 1 column 2" ∧
    ¬ List.IsInfix ("not-json".data)
      ("Failed to parse result: expected ident at line 1 column 2".data) ∧
    (poll_result (poll_result pollDemo).2).1 =
      Except.ok (some ⟨"hello", true, ⟨1, 0⟩⟩) := by
  exact ⟨by decide, by decide, by decide⟩

/-- C7 (amended): a line that fails to decode yields a decode error that
wraps the parser message - positional diagnostic context rather than the
offending line itself - distinct from the end-of-stream outcome, and the
channel remains usable: the reader advances past the offending line. -/
theorem poll_result_decode_error_spec (t : StreamingTranscriber) (l : String)
    (rest : List ReadOutcome) (e : String)
    (h : t.reader = some (ReadOutcome.line l :: rest))
    (hp : parseStreamingResult (strTrim l) = Except.error e) :
    (poll_result t).1 = Except.error ("Failed to parse result: " ++ e) ∧
    Except.error ("Failed to parse result: " ++ e) ≠
      (Except.error "Streaming process ended" : Except String (Option StreamingResult)) ∧
    (poll_result t).2.reader = some rest := by
  refine ⟨?_, ?_, ?_⟩
  · unfold poll_result
    rw [h]
    simp [readLine, hp]
  · intro hEq
    have hs : ("Failed to parse result: " ++ e) = "Streaming process ended" := by
      simpa using hEq
    have hd : ("Failed to parse result: ").data ++ e.data =
        "Streaming process ended".data := by
      rw [← String.data_append, hs]
    have hpre : ("Failed to parse result: ").data <+: "Streaming process ended".data := by
      rw [← hd]
      exact List.prefix_append _ _
    exact absurd hpre (by decide)
  · unfold poll_result
    rw [h]
    simp [readLine, hp]

/-- Witness for C7 (amended) at the malformed line `not-json`. -/
theorem poll_result_decode_error_spec_witness :
    (poll_result ⟨"./helpers/transcribe_stream", AudioInputMode.Microphone, some 0,
        some [ReadOutcome.line "not-json\n"], none⟩).1 =
      Except.error ("Failed to parse result: " ++ "expected ident at line 1 column 2") :=
  (poll_result_decode_error_spec _ "not-json\n" [] "expected ident at line 1 column 2"
    rfl (by decide)).1

/-- C8: the claim is false on the code. When the termination signal fails
(kill returns an OS error) - and likewise when the reap fails - `stop` still
returns `Ok(())`: both results are discarded with `let _ =` in the source,
so shutdown failures are silently swallowed, not returned. -/
theorem stop_swallows_kill_failure :
    (stop stopDemo ⟨[⟨false, false⟩]⟩
        (Except.error "EPERM: operation not permitted") (Except.ok ())).1 =
      Except.ok () ∧
    (stop stopDemo ⟨[⟨false, false⟩]⟩
        (Except.error "EPERM: operation not permitted")
        (Except.error "ECHILD: no child processes")).1 = Except.ok () := by
  exact ⟨rfl, rfl⟩

/-- C8 (amended): `stop` always returns `Ok(())`, whatever the outcomes of
the kill and wait calls, and always clears the worker handle (process, stdin
and reader are gone afterwards). -/
theorem stop_always_ok (t : StreamingTranscriber) (w : WorkerWorld)
    (killRes waitRes : Except String Unit) :
    (stop t w killRes waitRes).1 = Except.ok () ∧
    (stop t w killRes waitRes).2.1.process = none ∧
    (stop t w killRes waitRes).2.1.stdin = none ∧
    (stop t w killRes waitRes).2.1.reader = none := by
  unfold stop
  cases t.process <;> simp
